import Mathlib

/- Verification of the datetime-parsing core of the combiner repository
   (src/datetime_parsing.py).

   Modelling choices:
   * Python strings are modelled as `List Char` (abbrev `Str`).
   * Timestamps are modelled as `Int`: microseconds since the Unix epoch,
     understood as UTC instants (the code requests time_unit "us" and
     time_zone "UTC" everywhere).
   * The columnar engine's per-pattern primitive
     `str.to_datetime(format=fmt, strict=False, time_unit="us", time_zone="UTC")`
     is modelled by a strftime-style matcher (`tryFormat`) over exactly the
     directives that occur in DATETIME_FORMATS, following the engine's
     strptime semantics: greedy 1..width numeric fields with no backtracking,
     whole-string consumption, optional fractional seconds for "%.f",
     sign + HH + optional colon + MM offsets for "%z" and "%:z",
     short-or-long month and weekday names, weekday consistency checking,
     and calendar validation (month 1-12, day valid for month/year,
     hour 0-23, minute/second 0-59).  A template the tokenizer does not
     understand matches no input.  Leap seconds are not modelled.
   * A pattern without an offset directive is resolved with offset 0,
     i.e. interpreted as UTC, matching time_zone="UTC" on naive parses.
-/

namespace Combiner

/-- Python strings are modelled as lists of characters. -/
abbrev Str := List Char

/-- One strftime directive or literal of a format template. -/
inductive Tok where
  | lit (c : Char)
  | space
  | year | month | day | hour | minute | second
  | hour12 | ampm
  | monthName | monthAbbr | weekdayName
  | frac
  | tzColon
  | tz
deriving DecidableEq, Repr

/-- Directive characters of the single-character strftime directives used in
DATETIME_FORMATS. -/
def dirTok (c : Char) : Option Tok :=
  if c = 'Y' then some Tok.year
  else if c = 'm' then some Tok.month
  else if c = 'd' then some Tok.day
  else if c = 'H' then some Tok.hour
  else if c = 'M' then some Tok.minute
  else if c = 'S' then some Tok.second
  else if c = 'I' then some Tok.hour12
  else if c = 'p' then some Tok.ampm
  else if c = 'B' then some Tok.monthName
  else if c = 'b' then some Tok.monthAbbr
  else if c = 'a' then some Tok.weekdayName
  else if c = 'z' then some Tok.tz
  else none

/-- Tokenize a strftime format template.  Returns `none` for a template with
a directive the engine does not understand (an internally inconsistent
template). -/
def tokenize : Str → Option (List Tok)
  | [] => some []
  | '%' :: '.' :: 'f' :: rest => (tokenize rest).map (Tok.frac :: ·)
  | '%' :: ':' :: 'z' :: rest => (tokenize rest).map (Tok.tzColon :: ·)
  | '%' :: c :: rest =>
      match dirTok c with
      | some t => (tokenize rest).map (t :: ·)
      | none => none
  | c :: rest =>
      (tokenize rest).map ((if c = ' ' then Tok.space else Tok.lit c) :: ·)

/-- Intermediate parse state accumulated while consuming a template against an
input string; mirrors the fields the engine's strptime fills in. -/
structure ParseState where
  year : Option Int := none
  month : Option Nat := none
  day : Option Nat := none
  hour : Option Nat := none
  hour12v : Option Nat := none
  pm : Option Bool := none
  minute : Option Nat := none
  second : Option Nat := none
  nanos : Nat := 0
  offset : Option Int := none
  weekday : Option Nat := none
deriving DecidableEq, Repr

/-- Drop leading whitespace (the engine skips whitespace at a template space
and before numeric fields). -/
def skipWs (cs : Str) : Str := cs.dropWhile Char.isWhitespace

/-- Take up to `w` leading decimal digits, returning their values and the
rest of the input. -/
def takeDigits : Nat → Str → (List Nat × Str)
  | _, [] => ([], [])
  | 0, cs => ([], cs)
  | Nat.succ w, c :: cs =>
      if c.isDigit then
        let p := takeDigits w cs
        ((c.toNat - 48) :: p.1, p.2)
      else ([], c :: cs)

/-- Value of a digit sequence. -/
def digitsVal (ds : List Nat) : Nat := ds.foldl (fun a d => a * 10 + d) 0

/-- Greedy numeric field of width 1..`w` after skipping whitespace
(at least one digit required, no backtracking). -/
def parseNum (w : Nat) (cs : Str) : Option (Nat × Str) :=
  let cs := skipWs cs
  match takeDigits w cs with
  | ([], _) => none
  | (d :: ds, rest) => some (digitsVal (d :: ds), rest)

/-- Year field: optional sign then digits; unsigned years read at most four
digits, a signed year reads all following digits. -/
def parseYearNum (cs : Str) : Option (Int × Str) :=
  let cs := skipWs cs
  match cs with
  | '+' :: rest => (parseNum rest.length rest).map (fun p => ((p.1 : Int), p.2))
  | '-' :: rest => (parseNum rest.length rest).map (fun p => (-(p.1 : Int), p.2))
  | _ => (parseNum 4 cs).map (fun p => ((p.1 : Int), p.2))

/-- Strip a (lower-case) pattern as a case-insensitive prefix of the input. -/
def stripCI : Str → Str → Option Str
  | [], cs => some cs
  | _ :: _, [] => none
  | p :: ps, c :: cs => if c.toLower = p then stripCI ps cs else none

/-- Optionally strip a (lower-case) pattern as a case-insensitive prefix;
leaves the input unchanged when it does not match. -/
def stripCIOpt (p cs : Str) : Str :=
  match stripCI p cs with
  | some rest => rest
  | none => cs

/-- Three-letter month abbreviations with month numbers (lower case). -/
def monthAbbrTable : List (Str × Nat) :=
  [("jan".data, 1), ("feb".data, 2), ("mar".data, 3), ("apr".data, 4),
   ("may".data, 5), ("jun".data, 6), ("jul".data, 7), ("aug".data, 8),
   ("sep".data, 9), ("oct".data, 10), ("nov".data, 11), ("dec".data, 12)]

/-- Suffix completing the long month name after its three-letter
abbreviation, indexed by month number. -/
def monthLongSuffix (m : Nat) : Str :=
  match m with
  | 1 => "uary".data
  | 2 => "ruary".data
  | 3 => "ch".data
  | 4 => "il".data
  | 5 => [].map id
  | 6 => "e".data
  | 7 => "y".data
  | 8 => "ust".data
  | 9 => "tember".data
  | 10 => "ober".data
  | 11 => "ember".data
  | _ => "ember".data

/-- Three-letter weekday abbreviations with indices (Monday = 0, lower
case). -/
def weekdayAbbrTable : List (Str × Nat) :=
  [("mon".data, 0), ("tue".data, 1), ("wed".data, 2), ("thu".data, 3),
   ("fri".data, 4), ("sat".data, 5), ("sun".data, 6)]

/-- Suffix completing the long weekday name after its abbreviation. -/
def weekdayLongSuffix (w : Nat) : Str :=
  match w with
  | 0 => "day".data
  | 1 => "sday".data
  | 2 => "nesday".data
  | 3 => "rsday".data
  | 4 => "day".data
  | 5 => "urday".data
  | _ => "day".data

/-- Match a three-letter abbreviation from a table. -/
def matchAbbr (table : List (Str × Nat)) (cs : Str) : Option (Nat × Str) :=
  table.findSome? (fun e => (stripCI e.1 cs).map (fun rest => (e.2, rest)))

/-- Month name for "%b": exactly the three-letter abbreviation. -/
def parseMonthAbbr (cs : Str) : Option (Nat × Str) := matchAbbr monthAbbrTable cs

/-- Month name for "%B": the abbreviation, then the long-name suffix when it
is present (the engine accepts both short and long spellings). -/
def parseMonthLong (cs : Str) : Option (Nat × Str) :=
  (matchAbbr monthAbbrTable cs).map
    (fun p => (p.1, stripCIOpt (monthLongSuffix p.1) p.2))

/-- Weekday name for "%a": the abbreviation, then the long-name suffix when
it is present. -/
def parseWeekday (cs : Str) : Option (Nat × Str) :=
  (matchAbbr weekdayAbbrTable cs).map
    (fun p => (p.1, stripCIOpt (weekdayLongSuffix p.1) p.2))

/-- AM/PM marker for "%p" (case-insensitive): returns `true` for PM. -/
def parseAmPm (cs : Str) : Option (Bool × Str) :=
  match cs with
  | a :: m :: rest =>
      if m.toLower = 'm' then
        if a.toLower = 'a' then some (false, rest)
        else if a.toLower = 'p' then some (true, rest)
        else none
      else none
  | _ => none

/-- Fractional seconds for "%.f": optional dot followed by 1..9 digits,
scaled to nanoseconds; absent fraction consumes nothing. -/
def parseFrac (cs : Str) : Option (Nat × Str) :=
  match cs with
  | '.' :: rest =>
      match takeDigits 9 rest with
      | ([], _) => none
      | (d :: ds, r) => some (digitsVal (d :: ds) * 10 ^ (9 - (d :: ds).length), r)
  | _ => some (0, cs)

/-- Two mandatory decimal digits (offset hour or minute field). -/
def twoDigits (cs : Str) : Option (Nat × Str) :=
  match cs with
  | a :: b :: rest =>
      if a.isDigit && b.isDigit then some ((a.toNat - 48) * 10 + (b.toNat - 48), rest)
      else none
  | _ => none

/-- Skip the optional colon between offset hours and minutes. -/
def dropColon (cs : Str) : Str :=
  match cs with
  | ':' :: r => r
  | r => r

/-- Body of a UTC offset after the sign: two hour digits, an optional
colon, two minute digits; result in seconds east of UTC. -/
def parseTzBody (sign : Int) (cs : Str) : Option (Int × Str) :=
  match twoDigits cs with
  | none => none
  | some q1 =>
      match twoDigits (dropColon q1.2) with
      | none => none
      | some q2 => some (sign * ((q1.1 : Int) * 3600 + (q2.1 : Int) * 60), q2.2)

/-- UTC offset for "%z" / "%:z": leading whitespace skipped, a mandatory
sign, then the hour/minute body. -/
def parseTzOffset (cs : Str) : Option (Int × Str) :=
  match skipWs cs with
  | '+' :: rest => parseTzBody 1 rest
  | '-' :: rest => parseTzBody (-1) rest
  | _ => none

/-- Consume one template token from the input, updating the parse state. -/
def consumeTok (t : Tok) (st : ParseState) (cs : Str) : Option (ParseState × Str) :=
  match t with
  | Tok.lit c =>
      match cs with
      | c' :: rest => if c' = c then some (st, rest) else none
      | [] => none
  | Tok.space => some (st, skipWs cs)
  | Tok.year => (parseYearNum cs).map (fun p => ({ st with year := some p.1 }, p.2))
  | Tok.month => (parseNum 2 cs).map (fun p => ({ st with month := some p.1 }, p.2))
  | Tok.day => (parseNum 2 cs).map (fun p => ({ st with day := some p.1 }, p.2))
  | Tok.hour => (parseNum 2 cs).map (fun p => ({ st with hour := some p.1 }, p.2))
  | Tok.minute => (parseNum 2 cs).map (fun p => ({ st with minute := some p.1 }, p.2))
  | Tok.second => (parseNum 2 cs).map (fun p => ({ st with second := some p.1 }, p.2))
  | Tok.hour12 => (parseNum 2 cs).map (fun p => ({ st with hour12v := some p.1 }, p.2))
  | Tok.ampm => (parseAmPm cs).map (fun p => ({ st with pm := some p.1 }, p.2))
  | Tok.monthName => (parseMonthLong cs).map (fun p => ({ st with month := some p.1 }, p.2))
  | Tok.monthAbbr => (parseMonthAbbr cs).map (fun p => ({ st with month := some p.1 }, p.2))
  | Tok.weekdayName => (parseWeekday cs).map (fun p => ({ st with weekday := some p.1 }, p.2))
  | Tok.frac => (parseFrac cs).map (fun p => ({ st with nanos := p.1 }, p.2))
  | Tok.tzColon => (parseTzOffset cs).map (fun p => ({ st with offset := some p.1 }, p.2))
  | Tok.tz => (parseTzOffset cs).map (fun p => ({ st with offset := some p.1 }, p.2))

/-- Run a token list over the input; the whole input must be consumed. -/
def runToks : List Tok → ParseState → Str → Option ParseState
  | [], st, cs => if cs = [] then some st else none
  | t :: ts, st, cs =>
      match consumeTok t st cs with
      | some p => runToks ts p.1 p.2
      | none => none

/-- Gregorian leap-year test. -/
def isLeapYear (y : Int) : Bool :=
  y % 4 = 0 && (!(y % 100 = 0) || y % 400 = 0)

/-- Days in a month of a given year. -/
def daysInMonth (y : Int) (m : Nat) : Nat :=
  match m with
  | 1 => 31
  | 2 => if isLeapYear y then 29 else 28
  | 3 => 31
  | 4 => 30
  | 5 => 31
  | 6 => 30
  | 7 => 31
  | 8 => 31
  | 9 => 30
  | 10 => 31
  | 11 => 30
  | 12 => 31
  | _ => 0

/-- Days from the Unix epoch to the civil date y-m-d (proleptic
Gregorian). -/
def daysFromCivil (y : Int) (m d : Nat) : Int :=
  let y2 := if m ≤ 2 then y - 1 else y
  let era := y2 / 400
  let yoe := y2 - era * 400
  let mp : Int := if m ≤ 2 then (m : Int) + 9 else (m : Int) - 3
  let doy := (153 * mp + 2) / 5 + (d : Int) - 1
  let doe := yoe * 365 + yoe / 4 - yoe / 100 + doy
  era * 146097 + doe - 719468

/-- Boolean guard in the Option monad. -/
def guardB (b : Bool) : Option Unit := if b then some () else none

/-- Resolve the hour of day from a 24-hour field or a 12-hour field plus
AM/PM marker. -/
def resolveHour (st : ParseState) : Option Nat :=
  match st.hour with
  | some h => if h ≤ 23 then some h else none
  | none =>
      match st.hour12v, st.pm with
      | some h12, some pmv =>
          if 1 ≤ h12 && h12 ≤ 12 then some (h12 % 12 + (if pmv then 12 else 0))
          else none
      | _, _ => none

/-- Resolve the time of day: a template with no time fields at all yields
midnight (the engine parses a date-only format at 00:00:00); otherwise hour
and minute are required and the second defaults to 0. -/
def resolveTime (st : ParseState) : Option (Nat × Nat × Nat) :=
  if st.hour = none && st.hour12v = none && st.pm = none &&
     st.minute = none && st.second = none then
    some (0, 0, 0)
  else do
    let h ← resolveHour st
    let mi ← st.minute
    let s := st.second.getD 0
    _ ← guardB (mi ≤ 59 && s ≤ 59)
    some (h, mi, s)

/-- Microseconds since epoch of a valid civil date-time interpreted at the
given UTC offset (offset 0 when the template carried none). -/
def civilUs (y : Int) (m d h mi s : Nat) (nanos : Nat) (off : Int) : Int :=
  (daysFromCivil y m d * 86400 + (h : Int) * 3600 + (mi : Int) * 60 + (s : Int)) * 1000000
    + ((nanos / 1000 : Nat) : Int) - off * 1000000

/-- Semantic validation and conversion of a completed parse state: month in
1..12, day valid for the month/year, weekday consistent when parsed, offset
within a day; yields microseconds since the Unix epoch (UTC). -/
def finishState (st : ParseState) : Option Int := do
  let y ← st.year
  let m ← st.month
  let d ← st.day
  _ ← guardB (1 ≤ m && m ≤ 12 && 1 ≤ d && d ≤ daysInMonth y m)
  let days := daysFromCivil y m d
  _ ← guardB (match st.weekday with
              | some w => (days + 3) % 7 == (w : Int)
              | none => true)
  let t ← resolveTime st
  let off := st.offset.getD 0
  _ ← guardB (off.natAbs < 86400)
  some (civilUs y m d t.1 t.2.1 t.2.2 st.nanos off)

/-- The engine primitive: parse one string with one strftime template,
returning microseconds since epoch (UTC) or `none`.  This models
`str.to_datetime(format=fmt, strict=False, time_unit="us", time_zone="UTC")`
applied to one cell; a template the tokenizer rejects matches nothing. -/
def tryFormat (fmt : Str) (s : Str) : Option Int := do
  let toks ← tokenize fmt
  let st ← runToks toks {} s
  finishState st

/-- The ordered format registry, transcribed verbatim from
DATETIME_FORMATS in src/datetime_parsing.py (priority = list position). -/
def DATETIME_FORMATS : List Str := [
  "%Y-%m-%dT%H:%M:%S%.f%:z".data,
  "%Y-%m-%dT%H:%M:%S%:z".data,
  "%Y-%m-%dT%H:%M:%S%.fZ".data,
  "%Y-%m-%dT%H:%M:%SZ".data,
  "%Y-%m-%dT%H:%M:%S%.f".data,
  "%Y-%m-%dT%H:%M:%S".data,
  "%Y-%m-%dT%H:%M".data,
  "%Y-%m-%d %H:%M:%S%:z".data,
  "%Y-%m-%d %H:%M:%S%.f".data,
  "%Y-%m-%d %H:%M:%S".data,
  "%Y-%m-%d".data,
  "%m/%d/%Y %H:%M:%S".data,
  "%m/%d/%Y %I:%M:%S %p".data,
  "%m/%d/%Y %I:%M %p".data,
  "%m/%d/%Y".data,
  "%Y/%m/%d %H:%M:%S".data,
  "%Y/%m/%d".data,
  "%d/%m/%Y %H:%M:%S".data,
  "%d/%m/%Y".data,
  "%d-%m-%Y %H:%M:%S".data,
  "%d-%m-%Y".data,
  "%m-%d-%Y %H:%M:%S".data,
  "%m-%d-%Y".data,
  "%Y.%m.%d %H:%M:%S".data,
  "%Y.%m.%d".data,
  "%B %d, %Y %H:%M:%S".data,
  "%B %d, %Y".data,
  "%d %B %Y %H:%M:%S".data,
  "%d %B %Y".data,
  "%b %d, %Y".data,
  "%d %b %Y".data,
  "%d-%b-%Y %H:%M:%S".data,
  "%d-%b-%Y".data,
  "%Y%m%dT%H%M%SZ".data,
  "%Y%m%dT%H%M%S%:z".data,
  "%Y%m%d%H%M%S".data,
  "%Y%m%d".data,
  "%Y-%m-%d %H:%M:%S%z".data,
  "%Y-%m-%d %H:%M:%S %z".data,
  "%a, %d %b %Y %H:%M:%S%:z".data,
  "%a, %d %b %Y %H:%M:%S %z".data,
  "%Y-%m-%d %I:%M %p".data]

/-- Model of `_build_datetime_parsers`: one matcher per template, in registry
order; building the list performs no validation and never fails. -/
def buildDatetimeParsers (formats : List Str) : List (Str → Option Int) :=
  formats.map (fun fmt => fun s => tryFormat fmt s)

/-- Model of `pl.coalesce`: the first non-null candidate, else null. -/
def coalesce : List (Option Int) → Option Int
  | [] => none
  | some v :: _ => some v
  | none :: rest => coalesce rest

/-- One anchored-suffix regex replacement: `str.replace(r"X$", rep)` for a
literal suffix X replaces that suffix when present and is the identity
otherwise. -/
def replSuffix (suf rep s : Str) : Str :=
  if suf <:+ s then s.take (s.length - suf.length) ++ rep else s

/-- Model of the Normalizer (the preprocessing in
`parse_datetimes_multi_format`): the chained anchored replacements
" UTC$" then " GMT$" then "Z$", each rewriting to "+00:00". -/
def normalize (s : Str) : Str :=
  replSuffix ("Z".data) ("+00:00".data)
    (replSuffix (" GMT".data) ("+00:00".data)
      (replSuffix (" UTC".data) ("+00:00".data) s))

/-- Per-row essence of `parse_datetimes_multi_format`: normalize, then
coalesce the per-template matchers in registry order. -/
def parseDatetimesMultiFormatRow (formats : List Str) (s : Str) : Option Int :=
  coalesce ((buildDatetimeParsers formats).map (fun p => p (normalize s)))

/-- The format-matcher result with the shipped registry. -/
def formatMatchRow (s : Str) : Option Int :=
  parseDatetimesMultiFormatRow DATETIME_FORMATS s

/-- Exactly `n` ASCII digits. -/
def isDigitsLen (n : Nat) (s : Str) : Bool :=
  s.length = n && s.all Char.isDigit

/-- Value of an all-digit string (`str.to_integer` on such a string). -/
def digitsToNat (s : Str) : Nat :=
  s.foldl (fun a c => a * 10 + (c.toNat - 48)) 0

/-- Per-row essence of `parse_with_unix_timestamps`: a 10-digit string is
seconds since epoch, a 13-digit string is milliseconds; `pl.from_epoch`
scales both to microseconds, and the two disjoint candidates are
coalesced. -/
def parseWithUnixTimestampsRow (s : Str) : Option Int :=
  let unixS : Option Int := if isDigitsLen 10 s then some (digitsToNat s : Int) else none
  let unixMs : Option Int := if isDigitsLen 13 s then some (digitsToNat s : Int) else none
  let fromUnixS := unixS.map (· * 1000000)
  let fromUnixMs := unixMs.map (· * 1000)
  coalesce [fromUnixS, fromUnixMs]

/-- Per-row essence of `comprehensive_parse`: coalesce the format-based
result with the epoch-based result, format first.  (The code's
`replace_time_zone("UTC")` on the epoch candidate only retags the value.) -/
def comprehensiveParseRow (s : Str) : Option Int :=
  coalesce [formatMatchRow s, parseWithUnixTimestampsRow s]

/-- An input row: a stable identifier and the raw text. -/
structure InputRow where
  row_id : Nat
  raw : Str
deriving DecidableEq, Repr

/-- Model of the ParseResult dataclass, restricted to the fields the spec
talks about: per-row outcomes, the unparseable rows, and the two counts. -/
structure ParseResult where
  rows : List (Nat × Str × Option Int)
  unparseable : List (Nat × Str)
  success_count : Nat
  failure_count : Nat
deriving DecidableEq, Repr

/-- Batch-level `comprehensive_parse`: map the row parser over the batch,
filter the null rows into `unparseable`, and count successes and
failures. -/
def comprehensiveParse (df : List InputRow) : ParseResult :=
  let final := df.map (fun r => (r.row_id, r.raw, comprehensiveParseRow r.raw))
  { rows := final
    unparseable := (final.filter (fun x => x.2.2.isNone)).map (fun x => (x.1, x.2.1))
    success_count := (final.filter (fun x => x.2.2.isSome)).length
    failure_count := (final.filter (fun x => x.2.2.isNone)).length }

/-- Rendering of a failed value in `log_unparseable`: the empty string is
shown as a distinguishable placeholder. -/
def renderUnparseableValue (v : Str) : Str :=
  if v = [] then ("<empty string>".data) else v

/-- Whether a token sequence contains a timezone-offset directive. -/
def hasTzTok (toks : List Tok) : Bool :=
  toks.any (fun t => t == Tok.tz || t == Tok.tzColon)

/-- The three registry templates that end in a literal Z. -/
def zFormats : List Str :=
  ["%Y-%m-%dT%H:%M:%S%.fZ".data, "%Y-%m-%dT%H:%M:%SZ".data, "%Y%m%dT%H%M%SZ".data]

/-- The registry with the literal-Z templates removed; stated from the
claim's words, to be compared against the shipped registry. -/
def DATETIME_FORMATS_WITHOUT_Z : List Str :=
  DATETIME_FORMATS.filter (fun f => !(zFormats.contains f))

/-! ### Helper lemmas -/

theorem coalesce_cons_none (l : List (Option Int)) : coalesce (none :: l) = coalesce l := rfl

theorem coalesce_cons_some (v : Int) (l : List (Option Int)) :
    coalesce (some v :: l) = some v := rfl

theorem coalesce_pair (a b : Option Int) :
    coalesce [a, b] = (match a with | some v => some v | none => b) := by
  cases a <;> cases b <;> rfl

theorem coalesce_of_first (g : Str → Option Int) :
    ∀ (l : List Str) (i : Nat) (fmt : Str) (t : Int),
      l.get? i = some fmt → g fmt = some t →
      (∀ f ∈ l.take i, g f = none) →
      coalesce (l.map g) = some t := by
  intro l
  induction l with
  | nil => intro i fmt t h _ _; simp at h
  | cons a l ih =>
      intro i fmt t hget hhit hmiss
      cases i with
      | zero =>
          simp only [List.get?] at hget
          injection hget with hget
          subst hget
          simp [coalesce, hhit]
      | succ i =>
          have ha : g a = none := hmiss a (by simp [List.take_succ_cons])
          simp only [List.map_cons, ha, coalesce_cons_none]
          exact ih i fmt t hget hhit
            (fun f hf => hmiss f (by simp [List.take_succ_cons]; exact Or.inr hf))

theorem parseDatetimesMultiFormatRow_eq (formats : List Str) (s : Str) :
    parseDatetimesMultiFormatRow formats s =
      coalesce (formats.map (fun f => tryFormat f (normalize s))) := by
  simp [parseDatetimesMultiFormatRow, buildDatetimeParsers, List.map_map]
  rfl

theorem suffix_getLast? {s l : Str} (h : s <:+ l) (hne : s ≠ []) :
    l.getLast? = s.getLast? := by
  obtain ⟨t, rfl⟩ := h
  exact List.getLast?_append_of_ne_nil t hne

theorem replSuffix_pos {suf s : Str} (rep : Str) (h : suf <:+ s) :
    replSuffix suf rep s = s.take (s.length - suf.length) ++ rep := by
  simp [replSuffix, h]

theorem replSuffix_neg {suf s : Str} (rep : Str) (h : ¬ suf <:+ s) :
    replSuffix suf rep s = s := by
  simp [replSuffix, h]

theorem append_rep_getLast? (pre : Str) :
    (pre ++ "+00:00".data).getLast? = some '0' := by
  rw [List.getLast?_append_of_ne_nil pre (by decide)]
  decide

theorem marker_not_suffix_rep (pre suf : Str) (hne : suf ≠ [])
    (hlast : suf.getLast? ≠ some '0') : ¬ (suf <:+ pre ++ "+00:00".data) := by
  intro h
  apply hlast
  rw [← suffix_getLast? h hne, append_rep_getLast? pre]

/-! ### Claims -/

/-- Claim C1 — the Format Matcher returns the timestamp of the first
pattern in registry order that structurally matches the whole normalized
string and is semantically valid; patterns after the first success never
influence the result. -/
theorem c1_format_matcher_first_match (s : Str) (i : Nat) (fmt : Str) (t : Int)
    (hfmt : DATETIME_FORMATS.get? i = some fmt)
    (hhit : tryFormat fmt (normalize s) = some t)
    (hmiss : ∀ f ∈ DATETIME_FORMATS.take i, tryFormat f (normalize s) = none) :
    formatMatchRow s = some t := by
  rw [formatMatchRow, parseDatetimesMultiFormatRow_eq]
  exact coalesce_of_first _ _ i fmt t hfmt hhit hmiss

/-- Witness for C1: "2024-03-15" is matched by the eleventh pattern
"%Y-%m-%d" after the ten higher-priority patterns all fail. -/
theorem c1_format_matcher_first_match_witness :
    formatMatchRow ("2024-03-15".data) = some 1710460800000000 :=
  c1_format_matcher_first_match ("2024-03-15".data) 10 ("%Y-%m-%d".data) 1710460800000000
    (by rfl) (by rfl) (by decide)

/-- Claim C2 — for every row of the comprehensive parse, the final
timestamp is the Format Matcher result when present, otherwise the Epoch
Detector result; a present format result is used verbatim. -/
theorem c2_merger_priority (df : List InputRow) (i : Nat) (r : Nat × Str × Option Int)
    (hr : (comprehensiveParse df).rows.get? i = some r) :
    r.2.2 = (match formatMatchRow r.2.1 with
             | some v => some v
             | none => parseWithUnixTimestampsRow r.2.1) := by
  have hex : ∃ row, df.get? i = some row ∧
      r = (row.row_id, row.raw, comprehensiveParseRow row.raw) := by
    have hr2 : (df.map (fun r => (r.row_id, r.raw, comprehensiveParseRow r.raw))).get? i
        = some r := hr
    rw [List.get?_map] at hr2
    cases hdf : df.get? i with
    | none => rw [hdf] at hr2; simp at hr2
    | some row =>
        rw [hdf] at hr2
        simp at hr2
        exact ⟨row, rfl, hr2.symm⟩
  obtain ⟨row, _, rfl⟩ := hex
  simp only [comprehensiveParseRow]
  exact coalesce_pair _ _

/-- Witness for C2 at the one-row batch ["1710510600"]. -/
theorem c2_merger_priority_witness :
    ((0 : Nat), "1710510600".data, comprehensiveParseRow ("1710510600".data)).2.2 =
      (match formatMatchRow ("1710510600".data) with
       | some v => some v
       | none => parseWithUnixTimestampsRow ("1710510600".data)) :=
  c2_merger_priority [⟨0, "1710510600".data⟩] 0 _ (by rfl)

/-- Claim C3 — the Epoch Detector maps a 10-digit string to seconds since
epoch (zero fractional microseconds), a 13-digit string to milliseconds
scaled to microseconds, and anything else to no candidate. -/
theorem c3_epoch_detector (s : Str) :
    (isDigitsLen 10 s = true →
       parseWithUnixTimestampsRow s = some ((digitsToNat s : Int) * 1000000) ∧
       ((digitsToNat s : Int) * 1000000) % 1000000 = 0) ∧
    (isDigitsLen 13 s = true →
       parseWithUnixTimestampsRow s = some ((digitsToNat s : Int) * 1000)) ∧
    (isDigitsLen 10 s = false → isDigitsLen 13 s = false →
       parseWithUnixTimestampsRow s = none) := by
  refine ⟨?_, ?_, ?_⟩
  · intro h
    have h13 : isDigitsLen 13 s = false := by
      simp only [isDigitsLen, Bool.and_eq_true, decide_eq_true_eq] at h ⊢
      simp [h.1]
    constructor
    · simp [parseWithUnixTimestampsRow, h, coalesce]
    · exact Int.mul_emod_left _ _
  · intro h
    have h10 : isDigitsLen 10 s = false := by
      simp only [isDigitsLen, Bool.and_eq_true, decide_eq_true_eq] at h ⊢
      simp [h.1]
    simp [parseWithUnixTimestampsRow, h, h10, coalesce]
  · intro h10 h13
    simp [parseWithUnixTimestampsRow, h10, h13, coalesce]

/-- Witness for C3 at the 10-digit input "1710510600". -/
theorem c3_epoch_detector_witness :
    parseWithUnixTimestampsRow ("1710510600".data) = some 1710510600000000 :=
  (((c3_epoch_detector ("1710510600".data)).1 (by decide)).1).trans (by rfl)

/-- Case characterization of the Normalizer, shared by several results. -/
theorem normalize_cases (s : Str) :
    (" UTC".data <:+ s → normalize s = s.take (s.length - 4) ++ "+00:00".data) ∧
    (¬ " UTC".data <:+ s → " GMT".data <:+ s →
        normalize s = s.take (s.length - 4) ++ "+00:00".data) ∧
    (¬ " UTC".data <:+ s → ¬ " GMT".data <:+ s → "Z".data <:+ s →
        normalize s = s.take (s.length - 1) ++ "+00:00".data) ∧
    (¬ " UTC".data <:+ s → ¬ " GMT".data <:+ s → ¬ "Z".data <:+ s →
        normalize s = s) := by
  refine ⟨?_, ?_, ?_, ?_⟩
  · intro h
    rw [normalize, replSuffix_pos _ h,
        replSuffix_neg _ (marker_not_suffix_rep _ _ (by decide) (by decide)),
        replSuffix_neg _ (marker_not_suffix_rep _ _ (by decide) (by decide))]
    rfl
  · intro h1 h2
    rw [normalize, replSuffix_neg _ h1, replSuffix_pos _ h2,
        replSuffix_neg _ (marker_not_suffix_rep _ _ (by decide) (by decide))]
    rfl
  · intro h1 h2 h3
    rw [normalize, replSuffix_neg _ h1, replSuffix_neg _ h2, replSuffix_pos _ h3]
    rfl
  · intro h1 h2 h3
    rw [normalize, replSuffix_neg _ h1, replSuffix_neg _ h2, replSuffix_neg _ h3]

/-- Claim C5 — the Normalizer is total and rewrites exactly the trailing
" UTC", " GMT", or bare "Z" marker to "+00:00", leaving every other
character (and marker-free strings) unchanged. -/
theorem c5_normalizer (s : Str) :
    (" UTC".data <:+ s → normalize s = s.take (s.length - 4) ++ "+00:00".data) ∧
    (¬ " UTC".data <:+ s → " GMT".data <:+ s →
        normalize s = s.take (s.length - 4) ++ "+00:00".data) ∧
    (¬ " UTC".data <:+ s → ¬ " GMT".data <:+ s → "Z".data <:+ s →
        normalize s = s.take (s.length - 1) ++ "+00:00".data) ∧
    (¬ " UTC".data <:+ s → ¬ " GMT".data <:+ s → ¬ "Z".data <:+ s →
        normalize s = s) :=
  normalize_cases s

/-- Witness for C5 on all four marker cases. -/
theorem c5_normalizer_witness :
    normalize ("2024-03-15 14:30:00 UTC".data) = "2024-03-15 14:30:00+00:00".data ∧
    normalize ("Fri, 15 Mar 2024 14:30:00 GMT".data) = "Fri, 15 Mar 2024 14:30:00+00:00".data ∧
    normalize ("2024-03-15T14:30:00Z".data) = "2024-03-15T14:30:00+00:00".data ∧
    normalize ("not a date".data) = "not a date".data := by
  refine ⟨?_, ?_, ?_, ?_⟩
  · exact ((c5_normalizer ("2024-03-15 14:30:00 UTC".data)).1 (by decide)).trans (by decide)
  · exact (((c5_normalizer ("Fri, 15 Mar 2024 14:30:00 GMT".data)).2.1 (by decide))
      (by decide)).trans (by decide)
  · exact ((((c5_normalizer ("2024-03-15T14:30:00Z".data)).2.2.1 (by decide)) (by decide))
      (by decide)).trans (by decide)
  · exact (((c5_normalizer ("not a date".data)).2.2.2 (by decide)) (by decide)) (by decide)

theorem filter_length_split {α : Type} (p : α → Bool) (l : List α) :
    (l.filter p).length + (l.filter (fun a => !(p a))).length = l.length := by
  induction l with
  | nil => rfl
  | cons a l ih => cases h : p a <;> simp [List.filter_cons, h] <;> omega

/-- Claim C4 — success_count + failure_count equals the batch size, the
unparseable identifiers form an order-preserving subsequence of the input
identifiers, and (for a batch with distinct identifiers) every input
identifier lands in exactly one of the resolved set and the unparseable
set. -/
theorem c4_aggregate (df : List InputRow)
    (hid : (df.map InputRow.row_id).Nodup) :
    (comprehensiveParse df).success_count + (comprehensiveParse df).failure_count = df.length ∧
    List.Sublist ((comprehensiveParse df).unparseable.map Prod.fst)
      (df.map InputRow.row_id) ∧
    (∀ n ∈ df.map InputRow.row_id,
       (n ∈ ((comprehensiveParse df).rows.filter (fun x => x.2.2.isSome)).map Prod.fst ↔
        n ∉ (comprehensiveParse df).unparseable.map Prod.fst)) := by
  set f : InputRow → Nat × Str × Option Int :=
    fun r => (r.row_id, r.raw, comprehensiveParseRow r.raw) with hf
  have hrows : (comprehensiveParse df).rows = df.map f := rfl
  have hfst : (df.map f).map Prod.fst = df.map InputRow.row_id := by
    rw [List.map_map]; rfl
  have hnotNone : ∀ x : Nat × Str × Option Int, x.2.2.isNone = !(x.2.2.isSome) := by
    intro x; cases x.2.2 <;> rfl
  refine ⟨?_, ?_, ?_⟩
  · have h1 : (comprehensiveParse df).success_count = ((df.map f).filter
        (fun x => x.2.2.isSome)).length := rfl
    have h2 : (comprehensiveParse df).failure_count = ((df.map f).filter
        (fun x => x.2.2.isNone)).length := rfl
    rw [h1, h2]
    have h3 : ((df.map f).filter (fun x => x.2.2.isNone)) =
        ((df.map f).filter (fun x => !(x.2.2.isSome))) := by
      apply List.filter_congr
      intro x _
      exact hnotNone x
    rw [h3, filter_length_split (fun x => x.2.2.isSome) (df.map f), List.length_map]
  · have h1 : (comprehensiveParse df).unparseable.map Prod.fst =
        ((df.map f).filter (fun x => x.2.2.isNone)).map (fun x => x.1) := by
      show (((df.map f).filter (fun x => x.2.2.isNone)).map (fun x => (x.1, x.2.1))).map
          Prod.fst = _
      rw [List.map_map]; rfl
    rw [h1, ← hfst]
    exact ((List.filter_sublist (df.map f)).map (fun x => x.1))
  · intro n hn
    have hinj : ∀ x ∈ df.map f, ∀ y ∈ df.map f, x.1 = y.1 → x = y := by
      apply List.inj_on_of_nodup_map
      rw [hfst]; exact hid
    have hunp : (comprehensiveParse df).unparseable =
        ((df.map f).filter (fun x => x.2.2.isNone)).map (fun x => (x.1, x.2.1)) := rfl
    have hmemUnp : n ∈ (comprehensiveParse df).unparseable.map Prod.fst ↔
        ∃ y ∈ df.map f, y.2.2.isNone = true ∧ y.1 = n := by
      rw [hunp]
      constructor
      · intro h
        obtain ⟨z, hz, hzn⟩ := List.mem_map.mp h
        obtain ⟨y, hy2, hyz⟩ := List.mem_map.mp hz
        refine ⟨y, (List.mem_filter.mp hy2).1, (List.mem_filter.mp hy2).2, ?_⟩
        rw [← hzn, ← hyz]
      · rintro ⟨y, hy, hyn, hy1⟩
        apply List.mem_map.mpr
        exact ⟨(y.1, y.2.1), List.mem_map_of_mem _ (List.mem_filter.mpr ⟨hy, hyn⟩), hy1⟩
    have hmemRes : n ∈ ((comprehensiveParse df).rows.filter
        (fun x => x.2.2.isSome)).map Prod.fst ↔
        ∃ y ∈ df.map f, y.2.2.isSome = true ∧ y.1 = n := by
      rw [hrows]
      constructor
      · intro h
        obtain ⟨y, hy2, hy1⟩ := List.mem_map.mp h
        exact ⟨y, (List.mem_filter.mp hy2).1, (List.mem_filter.mp hy2).2, hy1⟩
      · rintro ⟨y, hy, hyn, hy1⟩
        exact List.mem_map.mpr ⟨y, List.mem_filter.mpr ⟨hy, hyn⟩, hy1⟩
    rw [hmemUnp, hmemRes]
    constructor
    · rintro ⟨y, hy, hyn, hy1⟩ ⟨z, hz, hzn, hz1⟩
      have hyz := hinj y hy z hz (hy1.trans hz1.symm)
      subst hyz
      rw [hnotNone y, hyn] at hzn
      exact absurd hzn (by decide)
    · intro h
      rw [← hfst] at hn
      obtain ⟨y, hy, hy1⟩ := List.mem_map.mp hn
      cases hopt : y.2.2 with
      | none =>
          exact absurd ⟨y, hy, by rw [hopt]; rfl, hy1⟩ h
      | some v =>
          exact ⟨y, hy, by rw [hopt]; rfl, hy1⟩

/-- Witness for C4 at a concrete three-row batch. -/
theorem c4_aggregate_witness :
    (comprehensiveParse [⟨0, "2024-03-15".data⟩, ⟨1, "not a date".data⟩,
        ⟨2, "1710510600".data⟩]).success_count +
      (comprehensiveParse [⟨0, "2024-03-15".data⟩, ⟨1, "not a date".data⟩,
        ⟨2, "1710510600".data⟩]).failure_count = 3 :=
  (c4_aggregate [⟨0, "2024-03-15".data⟩, ⟨1, "not a date".data⟩,
    ⟨2, "1710510600".data⟩] (by decide)).1

/-- Claim C7 — the batch parse is total: a malformed row is expressed only
as an absent timestamp recorded in `unparseable`, and replacing any single
row never changes the outcome of the rows before or after it. -/
theorem c7_no_batch_abort (pre post : List InputRow) (x y : InputRow) :
    ((comprehensiveParse (pre ++ x :: post)).rows.take pre.length =
       (comprehensiveParse (pre ++ y :: post)).rows.take pre.length ∧
     (comprehensiveParse (pre ++ x :: post)).rows.drop (pre.length + 1) =
       (comprehensiveParse (pre ++ y :: post)).rows.drop (pre.length + 1)) ∧
    (comprehensiveParseRow x.raw = none →
       (x.row_id, x.raw) ∈ (comprehensiveParse (pre ++ x :: post)).unparseable) := by
  set f : InputRow → Nat × Str × Option Int :=
    fun r => (r.row_id, r.raw, comprehensiveParseRow r.raw) with hf
  have hrows : ∀ z : InputRow,
      (comprehensiveParse (pre ++ z :: post)).rows = pre.map f ++ f z :: post.map f := by
    intro z
    show (pre ++ z :: post).map f = _
    rw [List.map_append, List.map_cons]
  have hlen : (pre.map f).length = pre.length := List.length_map pre f
  refine ⟨⟨?_, ?_⟩, ?_⟩
  · rw [hrows x, hrows y, List.take_left' hlen, List.take_left' hlen]
  · rw [hrows x, hrows y, List.append_cons _ (f x), List.append_cons _ (f y),
        List.drop_left', List.drop_left'] <;>
      simp [List.length_append, hlen]
  · intro hx
    show (x.row_id, x.raw) ∈
      (((pre ++ x :: post).map f).filter (fun v => v.2.2.isNone)).map
        (fun v => (v.1, v.2.1))
    have hmem : f x ∈ (pre ++ x :: post).map f :=
      List.mem_map_of_mem f (by simp)
    have hkeep : (f x).2.2.isNone = true := by
      show (comprehensiveParseRow x.raw).isNone = true
      rw [hx]; rfl
    have : f x ∈ ((pre ++ x :: post).map f).filter (fun v => v.2.2.isNone) :=
      List.mem_filter.mpr ⟨hmem, hkeep⟩
    exact List.mem_map_of_mem _ this

/-- Witness for C7: a malformed row between two good rows is recorded as
unparseable. -/
theorem c7_no_batch_abort_witness :
    (1, "oops".data) ∈ (comprehensiveParse
      [⟨0, "2024-03-15".data⟩, ⟨1, "oops".data⟩, ⟨2, "1710510600".data⟩]).unparseable :=
  (c7_no_batch_abort [⟨0, "2024-03-15".data⟩] [⟨2, "1710510600".data⟩]
      ⟨1, "oops".data⟩ ⟨1, "oops".data⟩).2 (by decide)

/-- Claim C8 — an empty-string row is always unresolved, lands in the
unparseable list, and is rendered by the diagnostics as the distinguishable
placeholder rather than dropped or shown as-is. -/
theorem c8_empty_string (df : List InputRow) (i : Nat) (r : InputRow)
    (hr : df.get? i = some r) (hempty : r.raw = []) :
    (comprehensiveParse df).rows.get? i = some (r.row_id, [], none) ∧
    (r.row_id, ([] : Str)) ∈ (comprehensiveParse df).unparseable ∧
    renderUnparseableValue [] = "<empty string>".data ∧
    renderUnparseableValue [] ≠ ([] : Str) := by
  have hEmptyParse : comprehensiveParseRow [] = none := by decide
  set f : InputRow → Nat × Str × Option Int :=
    fun v => (v.row_id, v.raw, comprehensiveParseRow v.raw) with hf
  have hfr : f r = (r.row_id, [], none) := by
    rw [hf]; simp only [hempty, hEmptyParse]
  refine ⟨?_, ?_, by decide, by decide⟩
  · have h1 : (comprehensiveParse df).rows.get? i = (df.map f).get? i := rfl
    rw [h1, List.get?_map, hr]
    simp [hfr]
  · have hmem : r ∈ df := List.get?_mem hr
    have hmem2 : f r ∈ (df.map f).filter (fun v => v.2.2.isNone) :=
      List.mem_filter.mpr ⟨List.mem_map_of_mem f hmem, by rw [hfr]; rfl⟩
    have : ((f r).1, (f r).2.1) ∈
        ((df.map f).filter (fun v => v.2.2.isNone)).map (fun v => (v.1, v.2.1)) :=
      List.mem_map_of_mem _ hmem2
    rw [hfr] at this
    exact this

/-- Witness for C8 at a two-row batch whose second row is empty. -/
theorem c8_empty_string_witness :
    ((1 : Nat), ([] : Str)) ∈ (comprehensiveParse
      [⟨0, "2024-03-15".data⟩, ⟨1, []⟩]).unparseable :=
  (c8_empty_string [⟨0, "2024-03-15".data⟩, ⟨1, []⟩] 1 ⟨1, []⟩ (by rfl) rfl).2.1

theorem consumeTok_offset {t : Tok} (hne1 : t ≠ Tok.tz) (hne2 : t ≠ Tok.tzColon)
    {st : ParseState} {cs : Str} {st' : ParseState} {cs' : Str}
    (h : consumeTok t st cs = some (st', cs')) : st'.offset = st.offset := by
  cases t with
  | lit c =>
      cases cs with
      | nil => simp [consumeTok] at h
      | cons a rest =>
          by_cases hc : a = c
          · simp [consumeTok, hc] at h
            rw [← h.1]
          · simp [consumeTok, hc] at h
  | space =>
      simp [consumeTok] at h
      rw [← h.1]
  | year =>
      obtain ⟨p, _, h2⟩ := Option.map_eq_some'.mp h
      cases h2; rfl
  | month =>
      obtain ⟨p, _, h2⟩ := Option.map_eq_some'.mp h
      cases h2; rfl
  | day =>
      obtain ⟨p, _, h2⟩ := Option.map_eq_some'.mp h
      cases h2; rfl
  | hour =>
      obtain ⟨p, _, h2⟩ := Option.map_eq_some'.mp h
      cases h2; rfl
  | minute =>
      obtain ⟨p, _, h2⟩ := Option.map_eq_some'.mp h
      cases h2; rfl
  | second =>
      obtain ⟨p, _, h2⟩ := Option.map_eq_some'.mp h
      cases h2; rfl
  | hour12 =>
      obtain ⟨p, _, h2⟩ := Option.map_eq_some'.mp h
      cases h2; rfl
  | ampm =>
      obtain ⟨p, _, h2⟩ := Option.map_eq_some'.mp h
      cases h2; rfl
  | monthName =>
      obtain ⟨p, _, h2⟩ := Option.map_eq_some'.mp h
      cases h2; rfl
  | monthAbbr =>
      obtain ⟨p, _, h2⟩ := Option.map_eq_some'.mp h
      cases h2; rfl
  | weekdayName =>
      obtain ⟨p, _, h2⟩ := Option.map_eq_some'.mp h
      cases h2; rfl
  | frac =>
      obtain ⟨p, _, h2⟩ := Option.map_eq_some'.mp h
      cases h2; rfl
  | tzColon => exact absurd rfl hne2
  | tz => exact absurd rfl hne1

theorem runToks_offset :
    ∀ (toks : List Tok) (st : ParseState) (cs : Str) (st' : ParseState),
      hasTzTok toks = false → runToks toks st cs = some st' →
      st'.offset = st.offset := by
  intro toks
  induction toks with
  | nil =>
      intro st cs st' _ h
      simp only [runToks] at h
      split at h
      · injection h with h; rw [← h]
      · exact absurd h (by simp)
  | cons t ts ih =>
      intro st cs st' htz h
      simp only [hasTzTok, List.any_cons, Bool.or_eq_false_iff] at htz
      have ht1 : t ≠ Tok.tz := ne_of_beq_false htz.1.1
      have ht2 : t ≠ Tok.tzColon := ne_of_beq_false htz.1.2
      have hts := htz.2
      simp only [runToks] at h
      cases hct : consumeTok t st cs with
      | none => rw [hct] at h; exact absurd h (by simp)
      | some p =>
          rw [hct] at h
          have hoff : p.1.offset = st.offset := by
            have hp : consumeTok t st cs = some (p.1, p.2) := by rw [hct]
            exact consumeTok_offset ht1 ht2 hp
          rw [ih p.1 p.2 st' (by simpa [hasTzTok] using hts) h, hoff]

/-- Claim C6 — parsed values are microsecond-resolution UTC instants: a
registry pattern without an offset directive parses with the offset field
left empty and so is converted as UTC (offset 0 in `finishState`); the
epoch path produces exact millisecond multiples, with zero fractional
microseconds in the 10-digit case. -/
theorem c6_utc_microseconds :
    (∀ fmt ∈ DATETIME_FORMATS, ∀ toks, tokenize fmt = some toks →
       hasTzTok toks = false →
       ∀ s t, tryFormat fmt s = some t →
         ∃ st, runToks toks {} s = some st ∧ st.offset = none ∧
           finishState st = some t) ∧
    (∀ s t, parseWithUnixTimestampsRow s = some t →
       t % 1000 = 0 ∧ (isDigitsLen 10 s = true → t % 1000000 = 0)) := by
  constructor
  · intro fmt _ toks htok htz s t h
    simp only [tryFormat, htok, Option.bind_eq_bind, Option.some_bind] at h
    cases hrun : runToks toks {} s with
    | none => rw [hrun] at h; exact absurd h (by simp)
    | some st =>
        rw [hrun] at h
        refine ⟨st, rfl, ?_, h⟩
        exact runToks_offset toks {} s st htz hrun
  · intro s t h
    by_cases h10 : isDigitsLen 10 s = true
    · have : t = (digitsToNat s : Int) * 1000000 := by
        simp [parseWithUnixTimestampsRow, h10, coalesce] at h
        omega
      subst this
      refine ⟨?_, fun _ => Int.mul_emod_left _ _⟩
      have : (digitsToNat s : Int) * 1000000 = ((digitsToNat s : Int) * 1000) * 1000 := by ring
      rw [this]
      exact Int.mul_emod_left _ _
    · by_cases h13 : isDigitsLen 13 s = true
      · have : t = (digitsToNat s : Int) * 1000 := by
          simp [parseWithUnixTimestampsRow, h10, h13, coalesce] at h
          omega
        subst this
        exact ⟨Int.mul_emod_left _ _, fun hc => absurd hc h10⟩
      · simp [parseWithUnixTimestampsRow,
          Bool.eq_false_iff.mpr h10, Bool.eq_false_iff.mpr h13, coalesce] at h

/-- Witness for C6: the offset-free pattern "%Y-%m-%d" on "2024-03-15". -/
theorem c6_utc_microseconds_witness :
    ∃ st, runToks [Tok.year, Tok.lit '-', Tok.month, Tok.lit '-', Tok.day]
        { : ParseState} "2024-03-15".data = some st ∧ st.offset = none ∧
      finishState st = some 1710460800000000 :=
  c6_utc_microseconds.1 ("%Y-%m-%d".data) (by decide)
    [Tok.year, Tok.lit '-', Tok.month, Tok.lit '-', Tok.day] (by rfl) (by rfl)
    "2024-03-15".data 1710460800000000 (by rfl)

theorem skipWs_suffix (cs : Str) : skipWs cs <:+ cs := List.dropWhile_suffix _

theorem takeDigits_suffix : ∀ (w : Nat) (cs : Str), (takeDigits w cs).2 <:+ cs := by
  intro w
  induction w with
  | zero => intro cs; cases cs <;> simp [takeDigits]
  | succ w ih =>
      intro cs
      cases cs with
      | nil => simp [takeDigits]
      | cons c rest =>
          by_cases hc : c.isDigit
          · simp only [takeDigits, hc, if_true]
            exact (ih rest).trans (List.suffix_cons c rest)
          · simp [takeDigits, hc]

theorem parseNum_suffix {w : Nat} {cs : Str} {p : Nat × Str}
    (h : parseNum w cs = some p) : p.2 <:+ cs := by
  simp only [parseNum] at h
  split at h
  · exact absurd h (by simp)
  · rename_i d ds rest heq
    injection h with h
    have h2 : (takeDigits w (skipWs cs)).2 = rest := by rw [heq]
    rw [← h]
    simp only [← h2]
    exact (takeDigits_suffix w (skipWs cs)).trans (skipWs_suffix cs)

theorem parseYearNum_suffix {cs : Str} {p : Int × Str}
    (h : parseYearNum cs = some p) : p.2 <:+ cs := by
  simp only [parseYearNum] at h
  split at h
  · rename_i rest heq
    obtain ⟨q, hq, h2⟩ := Option.map_eq_some'.mp h
    cases h2
    have hs : rest <:+ skipWs cs := heq ▸ List.suffix_cons _ _
    exact (parseNum_suffix hq).trans (hs.trans (skipWs_suffix cs))
  · rename_i rest heq
    obtain ⟨q, hq, h2⟩ := Option.map_eq_some'.mp h
    cases h2
    have hs : rest <:+ skipWs cs := heq ▸ List.suffix_cons _ _
    exact (parseNum_suffix hq).trans (hs.trans (skipWs_suffix cs))
  · obtain ⟨q, hq, h2⟩ := Option.map_eq_some'.mp h
    cases h2
    exact (parseNum_suffix hq).trans (skipWs_suffix cs)

theorem stripCI_suffix : ∀ (p cs rest : Str), stripCI p cs = some rest → rest <:+ cs := by
  intro p
  induction p with
  | nil =>
      intro cs rest h
      simp only [stripCI] at h
      injection h with h
      exact h ▸ List.suffix_refl cs
  | cons a p ih =>
      intro cs rest h
      cases cs with
      | nil => simp [stripCI] at h
      | cons c cs =>
          simp only [stripCI] at h
          split at h
          · exact (ih cs rest h).trans (List.suffix_cons c cs)
          · exact absurd h (by simp)

theorem stripCIOpt_suffix (p cs : Str) : stripCIOpt p cs <:+ cs := by
  simp only [stripCIOpt]
  split
  · rename_i rest heq
    exact stripCI_suffix p cs rest heq
  · exact List.suffix_refl cs

theorem matchAbbr_suffix :
    ∀ (table : List (Str × Nat)) (cs : Str) (p : Nat × Str),
      matchAbbr table cs = some p → p.2 <:+ cs := by
  intro table
  induction table with
  | nil => intro cs p h; simp [matchAbbr, List.findSome?] at h
  | cons e es ih =>
      intro cs p h
      simp only [matchAbbr, List.findSome?] at h
      cases hstrip : stripCI e.1 cs with
      | none => rw [hstrip] at h; simp at h; exact ih cs p h
      | some rest =>
          rw [hstrip] at h
          simp at h
          cases h
          exact stripCI_suffix e.1 cs rest hstrip

theorem parseMonthLong_suffix {cs : Str} {p : Nat × Str}
    (h : parseMonthLong cs = some p) : p.2 <:+ cs := by
  obtain ⟨q, hq, h2⟩ := Option.map_eq_some'.mp h
  cases h2
  exact (stripCIOpt_suffix _ q.2).trans (matchAbbr_suffix _ cs q hq)

theorem parseWeekday_suffix {cs : Str} {p : Nat × Str}
    (h : parseWeekday cs = some p) : p.2 <:+ cs := by
  obtain ⟨q, hq, h2⟩ := Option.map_eq_some'.mp h
  cases h2
  exact (stripCIOpt_suffix _ q.2).trans (matchAbbr_suffix _ cs q hq)

theorem parseAmPm_suffix {cs : Str} {p : Bool × Str}
    (h : parseAmPm cs = some p) : p.2 <:+ cs := by
  cases cs with
  | nil => simp [parseAmPm] at h
  | cons a rest =>
      cases rest with
      | nil => simp [parseAmPm] at h
      | cons m rest2 =>
          simp only [parseAmPm] at h
          split at h
          · split at h
            · injection h with h
              rw [← h]
              exact (List.suffix_cons m rest2).trans (List.suffix_cons a (m :: rest2))
            · split at h
              · injection h with h
                rw [← h]
                exact (List.suffix_cons m rest2).trans (List.suffix_cons a (m :: rest2))
              · exact absurd h (by simp)
          · exact absurd h (by simp)

theorem parseFrac_suffix {cs : Str} {p : Nat × Str}
    (h : parseFrac cs = some p) : p.2 <:+ cs := by
  cases cs with
  | nil =>
      simp only [parseFrac] at h
      injection h with h
      exact h ▸ List.suffix_refl _
  | cons c rest =>
      by_cases hc : c = '.'
      · subst hc
        simp only [parseFrac] at h
        split at h
        · exact absurd h (by simp)
        · rename_i d ds r heq
          injection h with h
          rw [← h]
          have h2 : (takeDigits 9 rest).2 = r := by rw [heq]
          simp only [← h2]
          exact (takeDigits_suffix 9 rest).trans (List.suffix_cons '.' rest)
      · have hform : parseFrac (c :: rest) = some (0, c :: rest) := by
          simp only [parseFrac]
          split
          · rename_i heq
            exact absurd (by injection heq) hc
          · rfl
        rw [hform] at h
        injection h with h
        exact h ▸ List.suffix_refl _

theorem twoDigits_suffix {cs : Str} {p : Nat × Str}
    (h : twoDigits cs = some p) : p.2 <:+ cs := by
  match cs with
  | [] => simp [twoDigits] at h
  | [a] => simp [twoDigits] at h
  | a :: b :: rest =>
      simp only [twoDigits] at h
      split at h
      · injection h with h
        rw [← h]
        exact (List.suffix_cons b rest).trans (List.suffix_cons a (b :: rest))
      · exact absurd h (by simp)

theorem dropColon_suffix (cs : Str) : dropColon cs <:+ cs := by
  match cs with
  | [] => exact List.suffix_refl _
  | c :: r =>
      by_cases hc : c = ':'
      · subst hc
        exact List.suffix_cons ':' r
      · have heq : dropColon (c :: r) = c :: r := by
          simp only [dropColon]
          split
          · rename_i heq2
            injection heq2 with h1 _
            exact absurd h1 hc
          · rfl
        rw [heq]

theorem parseTzBody_suffix {sign : Int} {cs : Str} {p : Int × Str}
    (h : parseTzBody sign cs = some p) : p.2 <:+ cs := by
  simp only [parseTzBody] at h
  split at h
  · exact absurd h (by simp)
  · rename_i q1 hq1
    split at h
    · exact absurd h (by simp)
    · rename_i q2 hq2
      injection h with h
      rw [← h]
      exact ((twoDigits_suffix hq2).trans (dropColon_suffix q1.2)).trans
        (twoDigits_suffix hq1)

theorem parseTzOffset_suffix {cs : Str} {p : Int × Str}
    (h : parseTzOffset cs = some p) : p.2 <:+ cs := by
  simp only [parseTzOffset] at h
  split at h
  · rename_i rest heq
    have hs : rest <:+ skipWs cs := heq ▸ List.suffix_cons _ _
    exact (parseTzBody_suffix h).trans (hs.trans (skipWs_suffix cs))
  · rename_i rest heq
    have hs : rest <:+ skipWs cs := heq ▸ List.suffix_cons _ _
    exact (parseTzBody_suffix h).trans (hs.trans (skipWs_suffix cs))
  · exact absurd h (by simp)

theorem consumeTok_suffix {t : Tok} {st : ParseState} {cs : Str}
    {st' : ParseState} {cs' : Str}
    (h : consumeTok t st cs = some (st', cs')) : cs' <:+ cs := by
  cases t with
  | lit c =>
      cases cs with
      | nil => simp [consumeTok] at h
      | cons a rest =>
          by_cases hc : a = c
          · simp [consumeTok, hc] at h
            rw [← h.2]
            exact List.suffix_cons a rest
          · simp [consumeTok, hc] at h
  | space =>
      simp [consumeTok] at h
      rw [← h.2]
      exact skipWs_suffix cs
  | year =>
      obtain ⟨p, hp, h2⟩ := Option.map_eq_some'.mp h
      cases h2
      exact parseYearNum_suffix hp
  | month =>
      obtain ⟨p, hp, h2⟩ := Option.map_eq_some'.mp h
      cases h2
      exact parseNum_suffix hp
  | day =>
      obtain ⟨p, hp, h2⟩ := Option.map_eq_some'.mp h
      cases h2
      exact parseNum_suffix hp
  | hour =>
      obtain ⟨p, hp, h2⟩ := Option.map_eq_some'.mp h
      cases h2
      exact parseNum_suffix hp
  | minute =>
      obtain ⟨p, hp, h2⟩ := Option.map_eq_some'.mp h
      cases h2
      exact parseNum_suffix hp
  | second =>
      obtain ⟨p, hp, h2⟩ := Option.map_eq_some'.mp h
      cases h2
      exact parseNum_suffix hp
  | hour12 =>
      obtain ⟨p, hp, h2⟩ := Option.map_eq_some'.mp h
      cases h2
      exact parseNum_suffix hp
  | ampm =>
      obtain ⟨p, hp, h2⟩ := Option.map_eq_some'.mp h
      cases h2
      exact parseAmPm_suffix hp
  | monthName =>
      obtain ⟨p, hp, h2⟩ := Option.map_eq_some'.mp h
      cases h2
      exact parseMonthLong_suffix hp
  | monthAbbr =>
      obtain ⟨p, hp, h2⟩ := Option.map_eq_some'.mp h
      cases h2
      exact matchAbbr_suffix _ cs p hp
  | weekdayName =>
      obtain ⟨p, hp, h2⟩ := Option.map_eq_some'.mp h
      cases h2
      exact parseWeekday_suffix hp
  | frac =>
      obtain ⟨p, hp, h2⟩ := Option.map_eq_some'.mp h
      cases h2
      exact parseFrac_suffix hp
  | tzColon =>
      obtain ⟨p, hp, h2⟩ := Option.map_eq_some'.mp h
      cases h2
      exact parseTzOffset_suffix hp
  | tz =>
      obtain ⟨p, hp, h2⟩ := Option.map_eq_some'.mp h
      cases h2
      exact parseTzOffset_suffix hp

theorem getLast?_ne_nil {l : Str} {c : Char} (h : l.getLast? = some c) : l ≠ [] := by
  intro he
  subst he
  simp at h

theorem runToks_lit_last :
    ∀ (toks : List Tok) (c : Char) (st : ParseState) (cs : Str) (st' : ParseState),
      toks.getLast? = some (Tok.lit c) → runToks toks st cs = some st' →
      cs.getLast? = some c := by
  intro toks
  induction toks with
  | nil => intro c st cs st' hl _; simp at hl
  | cons t ts ih =>
      intro c st cs st' hl hrun
      simp only [runToks] at hrun
      cases hct : consumeTok t st cs with
      | none => rw [hct] at hrun; exact absurd hrun (by simp)
      | some p =>
          rw [hct] at hrun
          cases ts with
          | nil =>
              have ht : t = Tok.lit c := by simpa using hl
              subst ht
              have hcs' : p.2 = [] := by
                simp only [runToks] at hrun
                split at hrun
                · assumption
                · exact absurd hrun (by simp)
              cases cs with
              | nil => simp [consumeTok] at hct
              | cons a rest =>
                  by_cases ha : a = c
                  · subst ha
                    simp [consumeTok] at hct
                    cases hct
                    simp only [] at hcs'
                    subst hcs'
                    simp
                  · simp [consumeTok, ha] at hct
          | cons t2 ts2 =>
              have hl2 : (t2 :: ts2).getLast? = some (Tok.lit c) := by
                rw [← List.getLast?_cons_cons]
                exact hl
              have hlast : p.2.getLast? = some c := ih c p.1 p.2 st' hl2 hrun
              have hsuf : p.2 <:+ cs := consumeTok_suffix (by rw [hct])
              rw [suffix_getLast? hsuf (getLast?_ne_nil hlast)]
              exact hlast

theorem normalize_not_endsZ (s : Str) : (normalize s).getLast? ≠ some 'Z' := by
  by_cases h1 : " UTC".data <:+ s
  · rw [(normalize_cases s).1 h1, append_rep_getLast?]
    decide
  · by_cases h2 : " GMT".data <:+ s
    · rw [(normalize_cases s).2.1 h1 h2, append_rep_getLast?]
      decide
    · by_cases h3 : "Z".data <:+ s
      · rw [(normalize_cases s).2.2.1 h1 h2 h3, append_rep_getLast?]
        decide
      · rw [(normalize_cases s).2.2.2 h1 h2 h3]
        intro hlast
        exact h3 ⟨s.dropLast, List.dropLast_append_getLast? 'Z' hlast⟩

theorem tokenize_z_lit_last :
    ∀ fmt ∈ zFormats, ∃ toks, tokenize fmt = some toks ∧
      toks.getLast? = some (Tok.lit 'Z') := by
  intro fmt hfmt
  fin_cases hfmt
  · exact ⟨_, rfl, by decide⟩
  · exact ⟨_, rfl, by decide⟩
  · exact ⟨_, rfl, by decide⟩

theorem tryFormat_z_none (s : Str) (hz : s.getLast? ≠ some 'Z') :
    ∀ fmt ∈ zFormats, tryFormat fmt s = none := by
  intro fmt hfmt
  obtain ⟨toks, htok, hlast⟩ := tokenize_z_lit_last fmt hfmt
  simp only [tryFormat, htok, Option.bind_eq_bind, Option.some_bind]
  cases hrun : runToks toks {} s with
  | none => rfl
  | some st =>
      exact absurd (runToks_lit_last toks 'Z' {} s st hlast hrun) hz

theorem coalesce_filter_eq (g : Str → Option Int) (p : Str → Bool) :
    ∀ l : List Str, (∀ f ∈ l, p f = false → g f = none) →
      coalesce (l.map g) = coalesce ((l.filter p).map g) := by
  intro l
  induction l with
  | nil => intro _; rfl
  | cons a l ih =>
      intro h
      cases hp : p a with
      | false =>
          have ha : g a = none := h a (List.mem_cons_self a l) hp
          rw [List.map_cons, ha, coalesce_cons_none,
              List.filter_cons_of_neg (by simp [hp])]
          exact ih (fun f hf hpf => h f (List.mem_cons_of_mem a hf) hpf)
      | true =>
          rw [List.filter_cons_of_pos hp, List.map_cons, List.map_cons]
          cases hga : g a with
          | none =>
              rw [coalesce_cons_none, coalesce_cons_none]
              exact ih (fun f hf hpf => h f (List.mem_cons_of_mem a hf) hpf)
          | some v => rw [coalesce_cons_some, coalesce_cons_some]

/-- Claim C10 — the normalized text never ends in Z, hence the three
literal-Z registry templates are never the accepted match, and removing
them from the registry yields the same parse result for every input. -/
theorem c10_z_templates_unreachable :
    (∀ s : Str, (normalize s).getLast? ≠ some 'Z') ∧
    (∀ fmt ∈ zFormats,
       fmt ∈ DATETIME_FORMATS ∧ ∀ s : Str, tryFormat fmt (normalize s) = none) ∧
    (∀ s : Str, formatMatchRow s =
       parseDatetimesMultiFormatRow DATETIME_FORMATS_WITHOUT_Z s) := by
  refine ⟨normalize_not_endsZ, ?_, ?_⟩
  · intro fmt hfmt
    refine ⟨by fin_cases hfmt <;> decide, ?_⟩
    intro s
    exact tryFormat_z_none (normalize s) (normalize_not_endsZ s) fmt hfmt
  · intro s
    rw [formatMatchRow, parseDatetimesMultiFormatRow_eq, parseDatetimesMultiFormatRow_eq,
        DATETIME_FORMATS_WITHOUT_Z]
    apply coalesce_filter_eq
    intro f _ hpf
    have hmem : f ∈ zFormats := by
      have : zFormats.contains f = true := by
        cases hcc : zFormats.contains f
        · rw [hcc] at hpf; simp at hpf
        · rfl
      simpa using this
    exact tryFormat_z_none (normalize s) (normalize_not_endsZ s) f hmem

/-- Witness for C10: the Z template never matches the normalized
"2024-03-15T14:30:00Z", and dropping the Z templates leaves the result
unchanged there. -/
theorem c10_z_templates_unreachable_witness :
    tryFormat ("%Y-%m-%dT%H:%M:%SZ".data) (normalize ("2024-03-15T14:30:00Z".data)) = none ∧
    formatMatchRow ("2024-03-15T14:30:00Z".data) =
      parseDatetimesMultiFormatRow DATETIME_FORMATS_WITHOUT_Z ("2024-03-15T14:30:00Z".data) :=
  ⟨(c10_z_templates_unreachable.2.1 ("%Y-%m-%dT%H:%M:%SZ".data) (by decide)).2
      "2024-03-15T14:30:00Z".data,
   c10_z_templates_unreachable.2.2 ("2024-03-15T14:30:00Z".data)⟩

/-- Counterexample for C9 — an internally inconsistent template ("%Q") is
not rejected when the parser list is built (construction is total and
performs no validation); it surfaces only per-row at parse time, where it
matches nothing. -/
theorem c9_counterexample_no_startup_detection :
    tokenize ("%Q".data) = none ∧
    (buildDatetimeParsers ["%Q".data]).length = 1 ∧
    tryFormat ("%Q".data) ("2024-03-15".data) = none := by
  exact ⟨rfl, rfl, rfl⟩

/-- Claim C9 as amended — two patterns can never share a priority slot
(priority is list position, one matcher per template); an internally
inconsistent template is not detected at construction, which always
succeeds, and only manifests per-row at parse time as a failed match; the
shipped registry itself contains no inconsistent template. -/
theorem c9_no_construction_validation (formats : List Str) :
    (buildDatetimeParsers formats).length = formats.length ∧
    (∀ fmt s, tokenize fmt = none → tryFormat fmt s = none) ∧
    DATETIME_FORMATS.all (fun f => (tokenize f).isSome) = true := by
  refine ⟨List.length_map _ _, ?_, by decide⟩
  intro fmt s htok
  simp [tryFormat, htok]

/-- Witness for C9's amended statement at the registry ["%Q"]. -/
theorem c9_no_construction_validation_witness :
    (buildDatetimeParsers ["%Q".data]).length = 1 ∧
    tryFormat ("%Q".data) ("abc".data) = none :=
  ⟨(c9_no_construction_validation ["%Q".data]).1,
   (c9_no_construction_validation ["%Q".data]).2.1 ("%Q".data) ("abc".data) (by rfl)⟩

end Combiner

